import Mathlib

/-!
Verification of the flow-preprocessor page-layout engine.

This file shallowly embeds the data model and the operations of
`flow_preprocessor/preprocessing_logic` (`parse_textlines.py`,
`process_images.py`, `fetch_images.py`, `preprocess.py`, `status.py`)
as executable Lean definitions, and proves or refutes the specified
properties about them.

Modelling conventions:
* Python strings are Lean `String`s; character-indexed slicing is done on
  `String.data` (`List Char`), matching Python's code-point indexing.
* Python's `min`/`max` on an empty sequence raise `ValueError`; the
  embeddings return `Option`, with `none` standing for the raised error.
* Functions that can raise return `Option`/`Except`; `none`/`.error`
  stands for the propagated Python exception.
* Coordinates are modelled with exact integers: the parser constructs
  every `Coordinate` via `int(...)` of the `points` attribute, and
  Python's float `min`/`max`/subtraction is exact on such values.
-/

namespace Flow

/-- Python `\s` (ASCII range) as used by `str.strip` and the `\s*` of the
custom-attribute regex. -/
def isPySpace (c : Char) : Bool :=
  c = ' ' || c = '\t' || c = '\n' || c = '\r' || c = '\x0b' || c = '\x0c'

/-- Python `\w` (ASCII range) as used by the custom-attribute regex
`(\w+)\s*\{([^}]+)\}`. -/
def isWordChar (c : Char) : Bool :=
  c.isAlphanum || c = '_'

/-- Python `str.strip()` on a code-point list. -/
def pyStripChars (cs : List Char) : List Char :=
  ((cs.dropWhile isPySpace).reverse.dropWhile isPySpace).reverse

/-- Python `str.strip()`. -/
def pyStrip (s : String) : String :=
  String.mk (pyStripChars s.data)

/-- Normalize a Python slice index against a sequence of length `len`:
negative indices count from the end, and out-of-range indices clamp. -/
def pyClamp (len : Nat) (i : Int) : Nat :=
  if i < 0 then ((len : Int) + i).toNat else min i.toNat len

/-- Python `s[:i]` on a code-point list. -/
def pyTake (cs : List Char) (i : Int) : List Char :=
  cs.take (pyClamp cs.length i)

/-- Python `s[i:]` on a code-point list. -/
def pyDrop (cs : List Char) (i : Int) : List Char :=
  cs.drop (pyClamp cs.length i)

/-- Value of a digit list, most significant first. -/
def digitsVal (cs : List Char) : Int :=
  cs.foldl (fun a c => a * 10 + ((c.toNat : Int) - ('0'.toNat : Int))) 0

/-- Python `int(s)` for a decimal string: strips surrounding whitespace,
accepts an optional sign followed by digits; `none` models the raised
`ValueError` on any other input. -/
def pyInt? (s : String) : Option Int :=
  let cs := pyStripChars s.data
  let signDigits : Int × List Char :=
    match cs with
    | '+' :: rest => (1, rest)
    | '-' :: rest => (-1, rest)
    | rest => (1, rest)
  if signDigits.2 ≠ [] ∧ signDigits.2.all Char.isDigit then
    some (signDigits.1 * digitsVal signDigits.2)
  else
    none

/-- Python `str.split(sep)` for a one-character separator (no maxsplit):
`"".split(sep) = [""]`, adjacent separators yield empty fields. -/
def pySplit (sep : Char) : List Char → List (List Char)
  | [] => [[]]
  | c :: cs =>
    if c = sep then
      [] :: pySplit sep cs
    else
      match pySplit sep cs with
      | [] => [[c]]
      | r :: rs => (c :: r) :: rs

-- ===============================================================================
-- parse_textlines.py : Coordinate
-- ===============================================================================

/-- `Coordinate` of `parse_textlines.py`: an image coordinate. -/
structure Coordinate where
  x : Int
  y : Int
deriving DecidableEq, Repr

/-- Python `min(list)`: `none` models the `ValueError` raised on an empty
sequence. -/
def pyMin : List Int → Option Int
  | [] => none
  | a :: l => some (l.foldl min a)

/-- Python `max(list)`: `none` models the `ValueError` raised on an empty
sequence. -/
def pyMax : List Int → Option Int
  | [] => none
  | a :: l => some (l.foldl max a)

/-- `Coordinate.min_x`. -/
def Coordinate.min_x (coordinates : List Coordinate) : Option Int :=
  pyMin (coordinates.map (·.x))

/-- `Coordinate.max_x`. -/
def Coordinate.max_x (coordinates : List Coordinate) : Option Int :=
  pyMax (coordinates.map (·.x))

/-- `Coordinate.min_y`. -/
def Coordinate.min_y (coordinates : List Coordinate) : Option Int :=
  pyMin (coordinates.map (·.y))

/-- `Coordinate.max_y`. -/
def Coordinate.max_y (coordinates : List Coordinate) : Option Int :=
  pyMax (coordinates.map (·.y))

/-- `Coordinate.get_width`: `max_x - min_x`; `none` models the propagated
`ValueError` on an empty sequence. -/
def Coordinate.get_width (coordinates : List Coordinate) : Option Int := do
  let mnx ← Coordinate.min_x coordinates
  let mxx ← Coordinate.max_x coordinates
  return mxx - mnx

/-- `Coordinate.get_bbox`: `(min_x, min_y, max_x, max_y)`; `none` models
the propagated `ValueError` on an empty sequence. -/
def Coordinate.get_bbox (coordinates : List Coordinate) :
    Option (Int × Int × Int × Int) := do
  let mnx ← Coordinate.min_x coordinates
  let mxx ← Coordinate.max_x coordinates
  let mny ← Coordinate.min_y coordinates
  let mxy ← Coordinate.max_y coordinates
  return (mnx, mny, mxx, mxy)

-- ===============================================================================
-- parse_textlines.py : Line
-- ===============================================================================

/-- `Line` of `parse_textlines.py`. `custom_attributes` is the Python
`Dict[str, List[Dict[str, str]]]`, modelled as insertion-ordered
association lists. -/
structure Line where
  line_number : String
  line_text : String
  line_document : String
  line_coordinates : List Coordinate
  line_baseline : List Coordinate
  custom_attributes : List (String × List (List (String × String)))
deriving DecidableEq, Repr

/-- `Line.get_output_filename`: the substitution
`re.sub(r"(\.[a-zA-Z]+)$", f".{line_number}\1", line_document)`.
The pattern has at most one match: the final `.`-plus-letters suffix
(`Char.isAlpha` is exactly the regex's `[a-zA-Z]`); when it exists, the
line number is inserted in front of it, otherwise the name is returned
unchanged. -/
def Line.get_output_filename (line : Line) : String :=
  let rev := line.line_document.data.reverse
  let extRev := rev.takeWhile Char.isAlpha
  let rest := rev.dropWhile Char.isAlpha
  match rest with
  | '.' :: beforeRev =>
    if extRev.isEmpty then
      line.line_document
    else
      String.mk (beforeRev.reverse ++ '.' :: line.line_number.data
        ++ '.' :: extRev.reverse)
  | _ => line.line_document

/-- One iteration of the loop in `Line.expand_abbreviations`: skip the
span if one of the three keys is missing, otherwise convert `offset` and
`length` with `int(...)` (`none` models the raised `ValueError`) and
rewrite `text[:offset+add_offset] + expansion +
text[offset+add_offset+length:]`, accumulating
`add_offset += len(expansion) - length`. -/
def expandStep (st : List Char × Int) (abbreviation : List (String × String)) :
    Option (List Char × Int) :=
  match abbreviation.lookup "offset", abbreviation.lookup "length",
      abbreviation.lookup "expansion" with
  | some offStr, some lenStr, some expansion =>
    match pyInt? offStr, pyInt? lenStr with
    | some offset, some length =>
      let text := st.1
      let i := offset + st.2
      some (pyTake text i ++ expansion.data ++ pyDrop text (i + length),
        st.2 + (expansion.length : Int) - length)
    | _, _ => none
  | _, _, _ => some st

/-- `Line.expand_abbreviations`: `none` models a propagated `ValueError`
from `int(...)` on a malformed span value. -/
def Line.expand_abbreviations (line : Line) : Option String :=
  match line.custom_attributes.lookup "abbrev" with
  | none => some line.line_text
  | some abbreviations =>
    (abbreviations.foldlM expandStep (line.line_text.data, 0)).map
      (fun st => String.mk st.1)

/-- `Line.get_line_text`. -/
def Line.get_line_text (line : Line) (expand_abbrev : Bool) : Option String :=
  if expand_abbrev = false then some line.line_text
  else line.expand_abbreviations

-- ===============================================================================
-- parse_textlines.py : PageParser.get_custom_attribute
-- ===============================================================================

/-- Attempted match of the regex `(\w+)\s*\{([^}]+)\}` anchored at the
current scan position: a non-empty `\w+` run, optional whitespace, an
opening brace, a non-empty run of non-brace characters, a closing brace.
Returns the two capture groups and the remaining input after the match.
(The regex admits no fruitful backtracking at a fixed position: shortening
the greedy `\w+` leaves a word character where `\s*\{` must match, and
shortening the greedy `[^}]+` never uncovers a `}`.) -/
def tryMatch (cs : List Char) : Option (String × String × List Char) :=
  let word := cs.takeWhile isWordChar
  if word.isEmpty then none
  else
    match (cs.dropWhile isWordChar).dropWhile isPySpace with
    | '{' :: afterBrace =>
      let body := afterBrace.takeWhile (· ≠ '}')
      if body.isEmpty then none
      else
        match afterBrace.dropWhile (· ≠ '}') with
        | '}' :: rest => some (String.mk word, String.mk body, rest)
        | _ => none
    | _ => none

/-- `re.findall(r"(\w+)\s*\{([^}]+)\}", s)`: scan left to right, emitting
non-overlapping matches. `fuel` bounds the recursion; every step consumes
at least one character, so `fuel = length` suffices. -/
def findallCustomAux : Nat → List Char → List (String × String)
  | 0, _ => []
  | _ + 1, [] => []
  | fuel + 1, c :: cs =>
    match tryMatch (c :: cs) with
    | some (w, b, rest) => (w, b) :: findallCustomAux fuel rest
    | none => findallCustomAux fuel cs

/-- All matches of the custom-attribute pattern in `s`. -/
def findallCustom (s : String) : List (String × String) :=
  findallCustomAux s.data.length s.data

/-- Python `dict` assignment `d[k] = v` on an insertion-ordered
association list: overwrite in place if the key exists, else append. -/
def dictInsert (d : List (String × String)) (k v : String) :
    List (String × String) :=
  if (d.lookup k).isSome then
    d.map (fun p => if p.1 = k then (k, v) else p)
  else
    d ++ [(k, v)]

/-- `defaultdict(list)` append `attributes[key].append(vd)` on an
insertion-ordered association list. -/
def attrsAppend (acc : List (String × List (List (String × String))))
    (key : String) (vd : List (String × String)) :
    List (String × List (List (String × String))) :=
  if (acc.lookup key).isSome then
    acc.map (fun p => if p.1 = key then (p.1, p.2 ++ [vd]) else p)
  else
    acc ++ [(key, [vd])]

/-- One segment of a group body in `PageParser.get_custom_attribute`:
`if ':' not in v: continue` then `k, v = v.split(':')`. The two-name
unpacking succeeds only when the split yields exactly two parts, i.e.
when the segment holds exactly one `:`; `none` models the `ValueError`
raised by the unpacking otherwise. -/
def customSegmentStep (d : List (String × String)) (v : List Char) :
    Option (List (String × String)) :=
  if ¬ v.contains ':' then some d
  else
    match pySplit ':' v with
    | [k, val] => some (dictInsert d (String.mk k) (String.mk val))
    | _ => none

/-- `PageParser.get_custom_attribute`: tokenize the `custom` attribute
with the `name { body }` pattern, split each body on `;`, strip each
segment, process each segment with `customSegmentStep`, and accumulate
same-named groups into a list. `none` models a propagated `ValueError`. -/
def get_custom_attribute (custom : String) :
    Option (List (String × List (List (String × String)))) :=
  (findallCustom custom).foldlM
    (fun acc m => do
      let segs := (pySplit ';' m.2.data).map pyStripChars
      let vd ← segs.foldlM customSegmentStep []
      return attrsAppend acc m.1 vd)
    []

/-- Written from the claim's words (C2): each segment is split on the
FIRST `:` into a key and a value, segments with no `:` are dropped,
and no error is possible. Used to compare against the source's
behaviour. -/
def customSegmentFirstColon (d : List (String × String)) (v : List Char) :
    List (String × String) :=
  if ¬ v.contains ':' then d
  else
    dictInsert d (String.mk (v.takeWhile (fun c => c != ':')))
      (String.mk ((v.dropWhile (fun c => c != ':')).tail))

/-- Written from the claim's words (C2): the full extraction with
first-colon splitting (total, never fails). -/
def customAttrFirstColon (custom : String) :
    List (String × List (List (String × String))) :=
  (findallCustom custom).foldl
    (fun acc m =>
      let segs := (pySplit ';' m.2.data).map pyStripChars
      attrsAppend acc m.1 (segs.foldl customSegmentFirstColon []))
    []

/-- Written from the amended claim's words (C2): a segment with no `:`
is dropped, a segment with exactly one `:` is split at it, and a segment
with more than one `:` makes the extraction fail. -/
def customSegmentAmended (d : List (String × String)) (v : List Char) :
    Option (List (String × String)) :=
  let n := v.count ':'
  if n = 0 then some d
  else if n = 1 then
    some (dictInsert d (String.mk (v.takeWhile (fun c => c != ':')))
      (String.mk ((v.dropWhile (fun c => c != ':')).tail)))
  else none

/-- Written from the amended claim's words (C2): the full extraction with
exactly-one-colon splitting. -/
def customAttrAmended (custom : String) :
    Option (List (String × List (List (String × String)))) :=
  (findallCustom custom).foldlM
    (fun acc m => do
      let segs := (pySplit ';' m.2.data).map pyStripChars
      let vd ← segs.foldlM customSegmentAmended []
      return attrsAppend acc m.1 vd)
    []

-- ===============================================================================
-- parse_textlines.py : Metadata, Page, PageParser.get_creator / get_image_url
-- ===============================================================================

/-- `Metadata` of `parse_textlines.py`. The fields keep Python's
`Optional[str]`: `none` models Python `None`. -/
structure Metadata where
  creator : Option String
  image_url : Option String
deriving DecidableEq, Repr

/-- The slice of a parsed XML document that `get_creator` and
`get_image_url` read. An outer `none` models an absent element; an inner
`none` models an element whose text / attribute is Python `None`. -/
structure PageDoc where
  namespace_uri : String
  creatorElem : Option (Option String)
  pageImageURL : Option (Option String)
  transkribusImgUrl : Option (Option String)
deriving DecidableEq, Repr

/-- The eScriptorium 2019-07-15 PAGE schema URI tested by
`get_image_url`. -/
def escriptoriumNamespace : String :=
  "http://schema.primaresearch.org/PAGE/gts/pagecontent/2019-07-15"

/-- `PageParser.get_creator`: the `Metadata/Creator` element's text if
the element exists (which may be Python `None`), else `""`. -/
def get_creator (d : PageDoc) : Option String :=
  match d.creatorElem with
  | some text => text
  | none => some ""

/-- `PageParser.get_image_url`. The eScriptorium branch reads
`root.find("ns:Page").get('imageURL')` (`.error` models the
`AttributeError` when the `Page` element is absent); the other branch
reads `root.xpath("ns:Metadata/ns:TranskribusMetadata")[0].get('imgUrl')`
(`.error` models the `IndexError` when the element is absent). -/
def get_image_url (d : PageDoc) : Except String (Option String) :=
  let creator := get_creator d
  if creator = some "escriptorium" ∧ d.namespace_uri = escriptoriumNamespace then
    match d.pageImageURL with
    | some attr => .ok attr
    | none => .error "AttributeError"
  else
    match d.transkribusImgUrl with
    | some attr => .ok attr
    | none => .error "IndexError"

-- ===============================================================================
-- parse_textlines.py : PageParser.process_lines_from_xml_file
-- ===============================================================================

/-- `Page` of `parse_textlines.py`. `image_file_name` keeps Python's
`Optional[str]` (the `imageFilename` attribute may be absent). -/
structure Page where
  image_file_name : Option String
  lines : List Line
  metadata : Metadata
deriving DecidableEq, Repr

/-- The per-line values drawn out of one `TextLine` element by
`get_line_id`, `get_line_text_string`, `get_coordinates`, `get_baseline`
and `get_custom_attribute`. -/
structure RawTextLine where
  line_number : String
  line_text : String
  line_coordinates : List Coordinate
  line_baseline : List Coordinate
  custom_attributes : List (String × List (List (String × String)))
deriving DecidableEq, Repr

/-- The `Line(...)` constructor call inside
`process_lines_from_xml_file`. -/
def mkLine (line_document : String) (t : RawTextLine) : Line :=
  { line_number := t.line_number
    line_text := t.line_text
    line_document := line_document
    line_coordinates := t.line_coordinates
    line_baseline := t.line_baseline
    custom_attributes := t.custom_attributes }

/-- The exception classes that the parser's per-line extraction can
raise (`XMLSyntaxError`/`ParseError`/`IndexError`/`TypeError`/
`ValueError`, `FileNotFoundError`, or anything else). -/
inductive PLineErr
  | parseError
  | fileNotFound
  | unexpected
deriving DecidableEq, Repr

/-- The loop body of `process_lines_from_xml_file` over the per-line
extraction outcomes: the first failing extraction aborts the whole
document; a successfully extracted line is skipped (`continue`) when its
text is empty or its coordinates or baseline list is empty, and appended
otherwise. -/
def process_lines_core (line_document : String) :
    List (Except PLineErr RawTextLine) → Except PLineErr (List Line)
  | [] => .ok []
  | .error e :: _ => .error e
  | .ok t :: ts =>
    (process_lines_core line_document ts).map fun rest =>
      if t.line_text = "" ∨ t.line_coordinates = [] ∨ t.line_baseline = []
      then rest
      else mkLine line_document t :: rest

/-- `process_lines_from_xml_file` with its exception handlers: every
handler appends `line_document` to `failed_processing` and re-raises as
`ParseTextLinesException`. Returns the updated `failed_processing` list
together with the result. -/
def process_lines_run (line_document : String) (failed_processing : List String)
    (raws : List (Except PLineErr RawTextLine)) :
    List String × Except PLineErr (List Line) :=
  match process_lines_core line_document raws with
  | .ok lines => (failed_processing, .ok lines)
  | .error e => (failed_processing ++ [line_document], .error e)

-- ===============================================================================
-- process_images.py : ImageProcessor
-- ===============================================================================

/-- Mutable bookkeeping of `ImageProcessor`. -/
structure ImageProcessorState where
  failed_processing : List String
  too_short : List String
deriving DecidableEq, Repr

/-- Outcome of `_load_image` / `Image.open` on the input path. The first
four error cases are the exception classes the source handles;
`unhandledError` is an exception outside those classes (for example
`IsADirectoryError` when the path names a directory, or
`PIL.Image.DecompressionBombError`), which Python's `open` call can also
raise. -/
inductive LoadOutcome
  | loaded
  | fileNotFound
  | unidentifiedImage
  | valueError
  | typeError
  | unhandledError
deriving DecidableEq, Repr

/-- Errors surfacing from the image-processing entry points:
`ImageProcessException` for handled classes, `uncaught` for an exception
no handler matches. -/
inductive ImgErr
  | imageProcess (msg : String)
  | uncaught
deriving DecidableEq, Repr

/-- `ImageProcessor.extract_line_from_image`. The raster result is
abstracted to the crop rectangle `bbox(baseline ++ coordinates)`.
Mirrors the source's control flow: the truthy `min_width` guard (Python
`if min_width and ...` — `None` and `0` both skip the check), whose
width computation on an empty baseline raises `ValueError` (caught by
the `except ValueError` handler); then image loading; then the crop,
whose `min`/`max` on empty input likewise raises `ValueError`. Every
handler — including the final `except Exception` — appends `in_path` to
`failed_processing` before raising. -/
def extract_line_from_image (st : ImageProcessorState)
    (baseline_points coordinates : List Coordinate) (in_path : String)
    (load : LoadOutcome) (min_width : Option Int) :
    ImageProcessorState × Except ImgErr (Int × Int × Int × Int) :=
  let fail := fun msg =>
    ({ st with failed_processing := st.failed_processing ++ [in_path] },
      (.error (.imageProcess msg) : Except ImgErr (Int × Int × Int × Int)))
  let proceed :=
    match load with
    | .loaded =>
      match Coordinate.get_bbox (baseline_points ++ coordinates) with
      | some bbox => (st, .ok bbox)
      | none => fail "ValueError"
    | .fileNotFound => fail "File not found"
    | .unidentifiedImage => fail "The image cannot be opened and identified"
    | .valueError => fail "Wrong value provided"
    | .typeError => fail "Wrong type provided"
    | .unhandledError => fail "Unknown error occurred"
  match min_width with
  | some mw =>
    if mw ≠ 0 then
      match Coordinate.get_width baseline_points with
      | some w =>
        if w < mw then
          ({ st with
              too_short := st.too_short ++ [in_path]
              failed_processing := st.failed_processing ++ [in_path] },
            .error (.imageProcess "Line to short"))
        else proceed
      | none => fail "ValueError"
    else proceed
  | none => proceed

/-- `ImageProcessor.crop_line_from_image`. The raster work (polygon mask,
paste, crop) is abstracted; what is modelled is the exception handling:
the four handled classes append `image_path` to `failed_processing` and
re-raise as `ImageProcessException`, while an exception outside those
classes has no matching handler (the function, unlike
`extract_line_from_image`, has no `except Exception`) and propagates
with no bookkeeping. -/
def crop_line_from_image (st : ImageProcessorState)
    (coordinates : List (Int × Int)) (image_path : String)
    (load : LoadOutcome) :
    ImageProcessorState × Except ImgErr Unit :=
  let fail := fun msg =>
    ({ st with failed_processing := st.failed_processing ++ [image_path] },
      (.error (.imageProcess msg) : Except ImgErr Unit))
  match load with
  | .loaded => (st, .ok ())
  | .fileNotFound => fail "File not found"
  | .unidentifiedImage => fail "The image cannot be opened and identified"
  | .valueError => fail "Wrong value provided"
  | .typeError => fail "Wrong type provided"
  | .unhandledError => (st, .error .uncaught)

-- ===============================================================================
-- fetch_images.py : ImageDownloader
-- ===============================================================================

/-- Mutable bookkeeping of `ImageDownloader`. -/
structure DownloaderState where
  failed_downloads : List String
  failed_processing : List String
  successes : List String
deriving DecidableEq, Repr

/-- Outcome of the HTTP request inside `_request_image_via_url`. -/
inductive RequestOutcome
  | downloaded
  | timedOut
  | requestFailed
deriving DecidableEq, Repr

/-- `ImageDownloader._request_image_via_url`: the `except Timeout` and
`except RequestException` handlers log and swallow the exception, so the
helper returns normally on every request outcome. -/
def request_image_via_url (outcome : RequestOutcome) : Except String Unit :=
  match outcome with
  | .downloaded => .ok ()
  | .timedOut => .ok ()
  | .requestFailed => .ok ()

/-- `os.path.join` for the simple relative-path case used here. -/
def pathJoin (a b : String) : String :=
  a ++ "/" ++ b

/-- `ImageDownloader.fetch_image`: resolve the destination path, call
`_request_image_via_url`, and append the destination to `successes`.
The `except RequestException` branch (append to `failed_downloads`,
raise `ImageFetchException`) is kept from the source, reachable only if
the request helper lets a `RequestException` escape. -/
def fetch_image (st : DownloaderState) (page : Page) (img_output : String)
    (outcome : RequestOutcome) : DownloaderState × Except String Unit :=
  match page.image_file_name with
  | none => (st, .ok ())
  | some image_filename =>
    let destination_path := pathJoin img_output image_filename
    match request_image_via_url outcome with
    | .ok _ =>
      ({ st with successes := st.successes ++ [destination_path] }, .ok ())
    | .error _ =>
      ({ st with failed_downloads := st.failed_downloads ++ [image_filename] },
        .error "ImageFetchException")

-- ===============================================================================
-- status.py / models.py : Status.update_progress
-- ===============================================================================

/-- `StateEnum` of `models.py`. -/
inductive StateEnum
  | in_progress
  | failed
  | done
deriving DecidableEq, Repr

/-- The exception classes handled by `preprocess_xml_file_list`. -/
inductive PreprocErr
  | parseTextLines
  | imageProcess
  | imageFetch
deriving DecidableEq, Repr

/-- The fields of `PreprocessState` that the status tracker reads and
writes (clock-derived `runtime` and the static configuration fields are
omitted; `progress` is computed with exact integer division where the
source uses `int((i / total) * 100)` in floating point). -/
structure PreprocessState where
  progress : Nat
  state : StateEnum
  files_successful : Nat
  files_failed_process : Nat
  files_failed_download : Nat
  files_total : Nat
  filenames_successful : List String
  filenames_failed_process : List String
  filenames_failed_download : List String
deriving DecidableEq, Repr

/-- A `PreprocessState` with the model defaults of
`PreprocessStateBase`. -/
def defaultPreprocessState : PreprocessState :=
  { progress := 0
    state := .in_progress
    files_successful := 0
    files_failed_process := 0
    files_failed_download := 0
    files_total := 0
    filenames_successful := []
    filenames_failed_process := []
    filenames_failed_download := [] }

/-- `Status.initialize_status`. -/
def initialize_status (st : PreprocessState) (files_fetched : List String)
    (files_download_failed : List String) : PreprocessState :=
  { st with
      files_total := files_fetched.length
      files_failed_download := files_download_failed.length
      filenames_failed_download := files_download_failed
      state := .in_progress }

/-- `Status.update_progress`. Faithful to the source's nesting: the
whole field update — including the trailing `state_enum` assignment —
sits inside `if current_item_index is not None and current_item_name is
not None`, so a call carrying only `state_enum` changes nothing. -/
def update_progress (st : PreprocessState) (current_item : Option (Nat × String))
    (success : Bool) (exception : Option PreprocErr)
    (state_enum : Option StateEnum) : PreprocessState :=
  match current_item with
  | none => st
  | some (idx, name) =>
    let st1 :=
      if st.files_total > 0 then
        { st with progress := idx * 100 / st.files_total }
      else
        { st with progress := 0 }
    let st2 :=
      if success then
        { st1 with
            files_successful := st1.files_successful + 1
            filenames_successful := st1.filenames_successful ++ [name] }
      else
        let stf :=
          { st1 with
              files_failed_process := st1.files_failed_process + 1
              filenames_failed_process := st1.filenames_failed_process ++ [name] }
        if exception = some .imageFetch then
          { stf with
              files_failed_download := stf.files_failed_download + 1
              filenames_failed_download := stf.filenames_failed_download ++ [name] }
        else stf
    match state_enum with
    | some se => { st2 with state := se }
    | none => st2

-- ===============================================================================
-- preprocess.py : Preprocessor.preprocess_xml_file_list
-- ===============================================================================

/-- The loop of `Preprocessor.preprocess_xml_file_list`, with the
per-document work (`preprocess_single_xml_file`) abstracted to an
outcome map (`none` = success, `some e` = the raised exception). On
failure with `stop_on_fail` the manager state is first forced to
`FAILED`, progress is updated, and the exception propagates with the
last status snapshot; without `stop_on_fail` the failure is recorded and
the loop continues. After the loop the source calls
`update_progress(state_enum=DONE)` (a no-op on the counters, see
`update_progress`) and then assigns `progressStatus.state = DONE`
directly. -/
def preprocess_xml_file_list_loop (outcome : String → Option PreprocErr)
    (stop_on_fail : Bool) (i : Nat) (st : PreprocessState) :
    List String → Except (PreprocErr × PreprocessState) PreprocessState
  | [] =>
    let st1 := update_progress st none true none (some .done)
    .ok { st1 with state := .done }
  | xml_file :: rest =>
    match outcome xml_file with
    | none =>
      let st1 := update_progress st (some (i + 1, xml_file)) true none none
      preprocess_xml_file_list_loop outcome stop_on_fail (i + 1) st1 rest
    | some e =>
      if stop_on_fail then
        let stf := { st with state := StateEnum.failed }
        let st1 :=
          update_progress stf (some (i + 1, xml_file)) false (some e)
            (some .failed)
        .error (e, st1)
      else
        let st1 :=
          update_progress st (some (i + 1, xml_file)) false (some e) none
        preprocess_xml_file_list_loop outcome stop_on_fail (i + 1) st1 rest

/-- `Preprocessor.preprocess_xml_file_list`. -/
def preprocess_xml_file_list (outcome : String → Option PreprocErr)
    (stop_on_fail : Bool) (st : PreprocessState) (page_xml_list : List String) :
    Except (PreprocErr × PreprocessState) PreprocessState :=
  preprocess_xml_file_list_loop outcome stop_on_fail 0 st page_xml_list

-- ===============================================================================
-- Specification-side definitions for abbreviation expansion (C3, C4)
-- ===============================================================================

/-- An abbreviation span as the spec words it: offset, length,
expansion. -/
structure AbbrevSpan where
  offset : Int
  length : Int
  expansion : String
deriving DecidableEq, Repr

/-- One replacement step as the claim words it: replace
`text[offset+delta : offset+delta+length]` with the expansion and
update `delta += len(expansion) - length`. -/
def applySpan (st : List Char × Int) (sp : AbbrevSpan) : List Char × Int :=
  let i := sp.offset + st.2
  (pyTake st.1 i ++ sp.expansion.data ++ pyDrop st.1 (i + sp.length),
    st.2 + (sp.expansion.length : Int) - sp.length)

/-- The cumulative-delta fold over a span list, as the claim words it. -/
def expandSpans (text : List Char) (spans : List AbbrevSpan) : List Char :=
  (spans.foldl applySpan (text, 0)).1

/-- A span dictionary has all of `offset`, `length`, `expansion`. -/
def hasAllKeys (d : List (String × String)) : Bool :=
  (d.lookup "offset").isSome && (d.lookup "length").isSome &&
    (d.lookup "expansion").isSome

/-- Parse a span dictionary into an `AbbrevSpan` (requires the three
keys and numeric `offset` / `length`). -/
def parseSpan (d : List (String × String)) : Option AbbrevSpan :=
  match d.lookup "offset", d.lookup "length", d.lookup "expansion" with
  | some offStr, some lenStr, some expansion =>
    match pyInt? offStr, pyInt? lenStr with
    | some offset, some length => some ⟨offset, length, expansion⟩
    | _, _ => none
  | _, _, _ => none

/-- Order on spans by original offset (C4's "ascending original-offset
order"). -/
def spanLE (a b : AbbrevSpan) : Prop :=
  a.offset ≤ b.offset

instance : DecidableRel spanLE := fun a b => inferInstanceAs (Decidable (_ ≤ _))

/-- Sorting spans into ascending original-offset order. -/
def sortSpans (spans : List AbbrevSpan) : List AbbrevSpan :=
  spans.insertionSort spanLE

-- ===============================================================================
-- Concrete instances used by the claim theorems and witnesses
-- ===============================================================================

/-- The abbreviation group of the worked example: one span
`abbrev{offset:49;length:2;expansion:en}`. -/
def exampleAbbrevGroup : List (List (String × String)) :=
  [[("offset", "49"), ("length", "2"), ("expansion", "en")]]

/-- The worked abbreviation-expansion example from the repository's test
data (`1520131_0003_58329924.xml`). The `ē` is, as in the test data, the
two code points `e` followed by U+0304 COMBINING MACRON (written with an
explicit escape below), so the span at offset 49 covers exactly those
two code points. -/
def exampleAbbrevLine : Line :=
  { line_number := "line_0"
    line_text := "Int erste quam den Steden en breff van dem hertoge\u0304 van Sleswik"
    line_document := "1520131_0003_58329924.jpg"
    line_coordinates := [⟨0, 0⟩, ⟨10, 10⟩]
    line_baseline := [⟨0, 5⟩, ⟨10, 5⟩]
    custom_attributes := [("abbrev", exampleAbbrevGroup)] }

/-- The expected expansion of `exampleAbbrevLine`. -/
def exampleExpandedText : String :=
  "Int erste quam den Steden en breff van dem hertogen van Sleswik"

/-- Two well-formed abbreviation spans stored in descending offset
order. -/
def descendingSpanGroup : List (List (String × String)) :=
  [[("offset", "2"), ("length", "1"), ("expansion", "XX")],
   [("offset", "0"), ("length", "1"), ("expansion", "YY")]]

/-- A line whose abbreviation spans are stored in descending offset
order. -/
def descendingSpanLine : Line :=
  { line_number := "l0"
    line_text := "abcd"
    line_document := "doc.jpg"
    line_coordinates := [⟨0, 0⟩]
    line_baseline := [⟨0, 1⟩]
    custom_attributes := [("abbrev", descendingSpanGroup)] }

/-- The same two spans stored in ascending offset order. -/
def ascendingSpanGroup : List (List (String × String)) :=
  [[("offset", "0"), ("length", "1"), ("expansion", "YY")],
   [("offset", "2"), ("length", "1"), ("expansion", "XX")]]

/-- A line whose abbreviation spans are stored in ascending offset
order. -/
def ascendingSpanLine : Line :=
  { descendingSpanLine with custom_attributes := [("abbrev", ascendingSpanGroup)] }

/-- A dialect-B document: creator marker `escriptorium` and the matching
2019-07-15 namespace. -/
def escrDoc : PageDoc :=
  { namespace_uri := escriptoriumNamespace
    creatorElem := some (some "escriptorium")
    pageImageURL := some (some "https://esc.example/img.jpg")
    transkribusImgUrl := some (some "https://trk.example/img.jpg") }

/-- A dialect-A document: Transkribus creator, 2013-07-15 namespace. -/
def transkribusDoc : PageDoc :=
  { namespace_uri := "http://schema.primaresearch.org/PAGE/gts/pagecontent/2013-07-15"
    creatorElem := some (some "Transkribus")
    pageImageURL := some none
    transkribusImgUrl := some (some "https://files.transkribus.eu/iiif/default.jpg") }

/-- A raw text line that passes the parser's filter (single-point
coordinate and baseline lists, non-empty text). -/
def goodRaw : RawTextLine :=
  { line_number := "r1"
    line_text := "some text"
    line_coordinates := [⟨3, 4⟩]
    line_baseline := [⟨3, 5⟩]
    custom_attributes := [] }

/-- A raw text line with empty text, which the parser must skip. -/
def badRaw : RawTextLine :=
  { line_number := "r2"
    line_text := ""
    line_coordinates := [⟨3, 4⟩, ⟨5, 6⟩]
    line_baseline := [⟨3, 5⟩]
    custom_attributes := [] }

/-- A line whose source image is the worked filename example. -/
def exampleJpgLine : Line :=
  { line_number := "0"
    line_text := "t"
    line_document := "1155140_0001_47389007.JPG"
    line_coordinates := [⟨0, 0⟩]
    line_baseline := [⟨0, 1⟩]
    custom_attributes := [] }

/-- A page pointing at a remote image, used for the download claims. -/
def examplePage : Page :=
  { image_file_name := some "1155140_0001_47389007.JPG"
    lines := []
    metadata :=
      { creator := some "Transkribus"
        image_url := some "https://files.transkribus.eu/iiif/default.jpg" } }

-- ===============================================================================
-- Helper lemmas
-- ===============================================================================

theorem foldl_min_le_init (l : List Int) (a : Int) : l.foldl min a ≤ a := by
  induction l generalizing a with
  | nil => simp
  | cons b l ih => exact le_trans (ih (min a b)) (min_le_left a b)

theorem foldl_min_le_mem (l : List Int) (a x : Int) (hx : x ∈ l) :
    l.foldl min a ≤ x := by
  induction l generalizing a with
  | nil => cases hx
  | cons b l ih =>
    rcases List.mem_cons.mp hx with h | h
    · subst h
      exact le_trans (foldl_min_le_init l (min a x)) (min_le_right a x)
    · exact ih (min a b) h

theorem init_le_foldl_max (l : List Int) (a : Int) : a ≤ l.foldl max a := by
  induction l generalizing a with
  | nil => simp
  | cons b l ih => exact le_trans (le_max_left a b) (ih (max a b))

theorem mem_le_foldl_max (l : List Int) (a x : Int) (hx : x ∈ l) :
    x ≤ l.foldl max a := by
  induction l generalizing a with
  | nil => cases hx
  | cons b l ih =>
    rcases List.mem_cons.mp hx with h | h
    · subst h
      exact le_trans (le_max_right a x) (init_le_foldl_max l (max a x))
    · exact ih (max a b) h

theorem pyMin_le {l : List Int} {m : Int} (hm : pyMin l = some m) :
    ∀ x ∈ l, m ≤ x := by
  cases l with
  | nil => cases hm
  | cons a l =>
    intro x hx
    have hm' : m = l.foldl min a := by
      simpa [pyMin] using hm.symm
    subst hm'
    rcases List.mem_cons.mp hx with h | h
    · subst h; exact foldl_min_le_init l x
    · exact foldl_min_le_mem l a x h

theorem le_pyMax {l : List Int} {m : Int} (hm : pyMax l = some m) :
    ∀ x ∈ l, x ≤ m := by
  cases l with
  | nil => cases hm
  | cons a l =>
    intro x hx
    have hm' : m = l.foldl max a := by
      simpa [pyMax] using hm.symm
    subst hm'
    rcases List.mem_cons.mp hx with h | h
    · subst h; exact init_le_foldl_max l x
    · exact mem_le_foldl_max l a x h

theorem takeWhile_append_of_all {p : Char → Bool} (l1 l2 : List Char)
    (h : ∀ c ∈ l1, p c = true) :
    (l1 ++ l2).takeWhile p = l1 ++ l2.takeWhile p := by
  induction l1 with
  | nil => simp
  | cons c l1 ih =>
    have hc : p c = true := h c (List.mem_cons_self c l1)
    simp [List.takeWhile_cons, hc, ih (fun d hd => h d (List.mem_cons_of_mem c hd))]

theorem dropWhile_append_of_all {p : Char → Bool} (l1 l2 : List Char)
    (h : ∀ c ∈ l1, p c = true) :
    (l1 ++ l2).dropWhile p = l2.dropWhile p := by
  induction l1 with
  | nil => simp
  | cons c l1 ih =>
    have hc : p c = true := h c (List.mem_cons_self c l1)
    simp [List.dropWhile_cons, hc, ih (fun d hd => h d (List.mem_cons_of_mem c hd))]

theorem pySplit_ne_nil (sep : Char) (v : List Char) : pySplit sep v ≠ [] := by
  cases v with
  | nil => simp [pySplit]
  | cons c cs =>
    by_cases h : c = sep
    · simp [pySplit, h]
    · cases hr : pySplit sep cs <;> simp [pySplit, h, hr]

theorem pySplit_length (sep : Char) (v : List Char) :
    (pySplit sep v).length = v.count sep + 1 := by
  induction v with
  | nil => simp [pySplit]
  | cons c cs ih =>
    by_cases h : c = sep
    · subst h
      simp [pySplit, List.count_cons, ih]
    · cases hr : pySplit sep cs with
      | nil => exact absurd hr (pySplit_ne_nil sep cs)
      | cons r rs =>
        have hlen := ih
        rw [hr] at hlen
        simp only [List.length_cons] at hlen
        simp [pySplit, h, hr, List.count_cons, Ne.symm h]
        omega

theorem pySplit_of_count_zero (sep : Char) (v : List Char)
    (h : v.count sep = 0) : pySplit sep v = [v] := by
  induction v with
  | nil => simp [pySplit]
  | cons c cs ih =>
    by_cases hc : c = sep
    · subst hc
      simp [List.count_cons] at h
    · have hcs0 : cs.count sep = 0 := by
        simpa [List.count_cons, hc] using h
      simp [pySplit, hc, ih hcs0]

theorem pySplit_of_count_one (sep : Char) (v : List Char) (h : v.count sep = 1) :
    pySplit sep v =
      [v.takeWhile (fun c => c != sep), (v.dropWhile (fun c => c != sep)).tail] := by
  induction v with
  | nil => simp at h
  | cons c cs ih =>
    by_cases hc : c = sep
    · subst hc
      have hcs0 : cs.count c = 0 := by
        simpa [List.count_cons] using h
      simp [pySplit, pySplit_of_count_zero c cs hcs0, List.takeWhile_cons,
        List.dropWhile_cons]
    · have hcs1 : cs.count sep = 1 := by
        simpa [List.count_cons, hc] using h
      cases hr : pySplit sep cs with
      | nil => exact absurd hr (pySplit_ne_nil sep cs)
      | cons r rs =>
        have hih := ih hcs1
        rw [hr] at hih
        simp only [List.cons.injEq] at hih
        simp [pySplit, hc, hr, hih.1, hih.2, List.takeWhile_cons,
          List.dropWhile_cons, hc]

theorem foldlM_option_congr {α β : Type} {f g : β → α → Option β}
    (h : ∀ b a, f b a = g b a) (l : List α) (b : β) :
    l.foldlM f b = l.foldlM g b := by
  induction l generalizing b with
  | nil => rfl
  | cons a l ih =>
    rw [List.foldlM_cons, List.foldlM_cons, h b a]
    cases g b a with
    | none => rfl
    | some b' => simpa using ih b'

theorem customSegmentStep_eq_amended (d : List (String × String))
    (v : List Char) : customSegmentStep d v = customSegmentAmended d v := by
  unfold customSegmentStep customSegmentAmended
  by_cases hc : v.contains ':'
  · have hmem : ':' ∈ v := by simpa using hc
    have hpos : 0 < v.count ':' := List.count_pos_iff.mpr hmem
    rcases hone : v.count ':' with _ | n
    · omega
    · rcases n with _ | n
      · rw [pySplit_of_count_one ':' v hone]
        simp [hc, hone, hmem]
      · have hlen := pySplit_length ':' v
        rw [hone] at hlen
        rcases hsplit : pySplit ':' v with _ | ⟨a, _ | ⟨b, _ | ⟨c, rest⟩⟩⟩ <;>
          rw [hsplit] at hlen <;> simp at hlen
        · simp [hc, hsplit, hone, hmem]
  · have hmem : ':' ∉ v := by simpa using hc
    have hzero : v.count ':' = 0 := List.count_eq_zero.mpr hmem
    simp [hc, hzero, hmem]

theorem expandStep_eq (st : List Char × Int) (d : List (String × String))
    (h : hasAllKeys d = true → (parseSpan d).isSome) :
    expandStep st d =
      some (match parseSpan d with
        | some sp => applySpan st sp
        | none => st) := by
  unfold expandStep parseSpan hasAllKeys at *
  cases hoff : d.lookup "offset" with
  | none => simp [hoff]
  | some offStr =>
    cases hlen : d.lookup "length" with
    | none => simp [hoff, hlen]
    | some lenStr =>
      cases hexp : d.lookup "expansion" with
      | none => simp [hoff, hlen, hexp]
      | some expansion =>
        simp only [hoff, hlen, hexp, Option.isSome_some, forall_true_left] at h
        cases hpo : pyInt? offStr with
        | none => simp [hpo] at h
        | some offset =>
          cases hpl : pyInt? lenStr with
          | none => simp [hpo, hpl] at h
          | some length => simp [hpo, hpl, applySpan]

theorem expand_fold_eq (G : List (List (String × String)))
    (st : List Char × Int)
    (h : ∀ d ∈ G, hasAllKeys d = true → (parseSpan d).isSome) :
    G.foldlM expandStep st = some ((G.filterMap parseSpan).foldl applySpan st) := by
  induction G generalizing st with
  | nil => rfl
  | cons d G ih =>
    have hd := h d (List.mem_cons_self d G)
    rw [List.foldlM_cons, expandStep_eq st d hd]
    have hrest : ∀ d' ∈ G, hasAllKeys d' = true → (parseSpan d').isSome :=
      fun d' hd' => h d' (List.mem_cons_of_mem d hd')
    cases hps : parseSpan d with
    | none => simpa [List.filterMap_cons, hps] using ih st hrest
    | some sp => simpa [List.filterMap_cons, hps] using ih (applySpan st sp) hrest

theorem update_progress_success_fields (st : PreprocessState) (idx : Nat)
    (name : String) :
    (update_progress st (some (idx, name)) true none none).state = st.state ∧
    (update_progress st (some (idx, name)) true none none).files_failed_process
      = st.files_failed_process ∧
    (update_progress st (some (idx, name)) true none none).filenames_failed_process
      = st.filenames_failed_process ∧
    (update_progress st (some (idx, name)) true none none).files_successful
      = st.files_successful + 1 ∧
    (update_progress st (some (idx, name)) true none none).filenames_successful
      = st.filenames_successful ++ [name] := by
  by_cases h : 0 < st.files_total <;> simp [update_progress, h]

theorem update_progress_failure_fields (st : PreprocessState) (idx : Nat)
    (name : String) (e : PreprocErr) :
    (update_progress st (some (idx, name)) false (some e) none).state = st.state ∧
    (update_progress st (some (idx, name)) false (some e) none).files_failed_process
      = st.files_failed_process + 1 ∧
    (update_progress st (some (idx, name)) false (some e) none).filenames_failed_process
      = st.filenames_failed_process ++ [name] ∧
    (update_progress st (some (idx, name)) false (some e) none).files_successful
      = st.files_successful ∧
    (update_progress st (some (idx, name)) false (some e) none).filenames_successful
      = st.filenames_successful := by
  by_cases h : 0 < st.files_total <;> by_cases he : e = .imageFetch <;>
    simp [update_progress, h, he]

theorem loop_no_stop (outcome : String → Option PreprocErr) (files : List String) :
    ∀ (i : Nat) (st : PreprocessState),
    ∃ final, preprocess_xml_file_list_loop outcome false i st files = .ok final ∧
      final.state = .done ∧
      final.files_failed_process
        = st.files_failed_process + files.countP (fun f => (outcome f).isSome) ∧
      final.filenames_failed_process
        = st.filenames_failed_process ++ files.filter (fun f => (outcome f).isSome) ∧
      final.files_successful
        = st.files_successful + files.countP (fun f => (outcome f).isNone) ∧
      final.filenames_successful
        = st.filenames_successful ++ files.filter (fun f => (outcome f).isNone) := by
  induction files with
  | nil =>
    intro i st
    refine ⟨{ st with state := .done }, ?_, rfl, by simp, by simp, by simp, by simp⟩
    simp [preprocess_xml_file_list_loop, update_progress]
  | cons f rest ih =>
    intro i st
    cases ho : outcome f with
    | none =>
      obtain ⟨final, heq, h1, h2, h3, h4, h5⟩ :=
        ih (i + 1) (update_progress st (some (i + 1, f)) true none none)
      obtain ⟨u1, u2, u3, u4, u5⟩ := update_progress_success_fields st (i + 1) f
      refine ⟨final, ?_, h1, ?_, ?_, ?_, ?_⟩
      · simpa [preprocess_xml_file_list_loop, ho] using heq
      · rw [h2, u2]
        simp [List.countP_cons, ho]
      · rw [h3, u3]
        simp [List.filter_cons, ho]
      · rw [h4, u4]
        simp [List.countP_cons, ho]
        omega
      · rw [h5, u5]
        simp [List.filter_cons, ho]
    | some e =>
      obtain ⟨final, heq, h1, h2, h3, h4, h5⟩ :=
        ih (i + 1) (update_progress st (some (i + 1, f)) false (some e) none)
      obtain ⟨u1, u2, u3, u4, u5⟩ := update_progress_failure_fields st (i + 1) f e
      refine ⟨final, ?_, h1, ?_, ?_, ?_, ?_⟩
      · simpa [preprocess_xml_file_list_loop, ho] using heq
      · rw [h2, u2]
        simp [List.countP_cons, ho]
        omega
      · rw [h3, u3]
        simp [List.filter_cons, ho]
      · rw [h4, u4]
        simp [List.countP_cons, ho]
      · rw [h5, u5]
        simp [List.filter_cons, ho]

theorem process_lines_core_ok (document : String) (raws : List RawTextLine) :
    ∃ lines, process_lines_core document (raws.map .ok) = .ok lines ∧
      (∀ l ∈ lines,
        l.line_text ≠ "" ∧ l.line_coordinates ≠ [] ∧ l.line_baseline ≠ []) ∧
      (∀ t ∈ raws, t.line_text ≠ "" → t.line_coordinates ≠ [] →
        t.line_baseline ≠ [] → mkLine document t ∈ lines) := by
  induction raws with
  | nil => exact ⟨[], rfl, by simp, by simp⟩
  | cons t ts ih =>
    obtain ⟨lines, heq, hmem, hkeep⟩ := ih
    by_cases hskip : t.line_text = "" ∨ t.line_coordinates = [] ∨ t.line_baseline = []
    · refine ⟨lines, ?_, hmem, ?_⟩
      · simp [process_lines_core, heq, hskip, Except.map]
      · intro t' ht' h1 h2 h3
        rcases List.mem_cons.mp ht' with h | h
        · subst h
          rcases hskip with h | h | h <;> [exact absurd h h1; exact absurd h h2;
            exact absurd h h3]
        · exact hkeep t' h h1 h2 h3
    · push_neg at hskip
      refine ⟨mkLine document t :: lines, ?_, ?_, ?_⟩
      · simp only [List.map_cons, process_lines_core, heq, Except.map]
        have : ¬ (t.line_text = "" ∨ t.line_coordinates = [] ∨ t.line_baseline = []) := by
          push_neg
          exact hskip
        simp [this]
      · intro l hl
        rcases List.mem_cons.mp hl with h | h
        · subst h
          exact ⟨hskip.1, hskip.2.1, hskip.2.2⟩
        · exact hmem l h
      · intro t' ht' h1 h2 h3
        rcases List.mem_cons.mp ht' with h | h
        · subst h
          exact List.mem_cons_self _ _
        · exact List.mem_cons_of_mem _ (hkeep t' h h1 h2 h3)

-- ===============================================================================
-- Claim theorems
-- ===============================================================================

/-- **C1**: image-URL extraction is dialect-sensitive with exactly two
paths: when the extracted creator is `"escriptorium"` and the document
namespace is the 2019-07-15 schema URI, the URL is the page element's
`imageURL` attribute; in every other case it is the
`TranskribusMetadata` element's `imgUrl` attribute. -/
theorem image_url_dialect_two_paths (d : PageDoc) :
    ((get_creator d = some "escriptorium" ∧
        d.namespace_uri = escriptoriumNamespace) →
      ∀ u, d.pageImageURL = some u → get_image_url d = .ok u) ∧
    (¬ (get_creator d = some "escriptorium" ∧
        d.namespace_uri = escriptoriumNamespace) →
      ∀ u, d.transkribusImgUrl = some u → get_image_url d = .ok u) := by
  constructor
  · intro h u hu
    simp [get_image_url, h, hu]
  · intro h u hu
    simp [get_image_url, h, hu]

/-- Witness for **C1**: a dialect-B document reads the page element's
`imageURL`; a Transkribus document reads `TranskribusMetadata/imgUrl`. -/
theorem image_url_dialect_two_paths_witness :
    get_image_url escrDoc = .ok (some "https://esc.example/img.jpg") ∧
    get_image_url transkribusDoc
      = .ok (some "https://files.transkribus.eu/iiif/default.jpg") :=
  ⟨(image_url_dialect_two_paths escrDoc).1 ⟨rfl, rfl⟩ _ rfl,
   (image_url_dialect_two_paths transkribusDoc).2 (by decide) _ rfl⟩

/-- **C2 counterexample**: the claim says a segment is split on its
FIRST `:`; on `abbrev{offset:1:2}` the source's two-name unpacking of
`v.split(':')` raises `ValueError` instead (the extraction returns no
map at all), so the result differs from the first-colon reading. -/
theorem custom_attribute_first_colon_counterexample :
    get_custom_attribute "abbrev\x7boffset:1:2\x7d" ≠
      some (customAttrFirstColon "abbrev\x7boffset:1:2\x7d") := by decide

/-- **C2 (amended)**: custom-attribute extraction tokenizes via the
`name { body }` pattern, splits each body on `;`, drops segments with no
`:`, splits a segment with exactly one `:` into key and value, fails
with an error on a segment with more than one `:`, and accumulates
same-named groups into a list. -/
theorem custom_attribute_amended_spec (s : String) :
    get_custom_attribute s = customAttrAmended s := by
  unfold get_custom_attribute customAttrAmended
  refine foldlM_option_congr ?_ (findallCustom s) []
  intro acc m
  have hseg := foldlM_option_congr customSegmentStep_eq_amended
    ((pySplit ';' m.2.data).map pyStripChars) []
  simp only [hseg]

/-- **C3**: abbreviation expansion skips spans missing one of the three
keys and otherwise folds the replacements left to right with the
cumulative delta; on the repository's worked example (`hertogē`, span
`offset 49 / length 2 / expansion "en"`) it produces the expected
expansion. -/
theorem expand_abbreviations_spec (line : Line)
    (G : List (List (String × String)))
    (hG : line.custom_attributes.lookup "abbrev" = some G)
    (hparse : ∀ d ∈ G, hasAllKeys d = true → (parseSpan d).isSome) :
    line.expand_abbreviations
      = some (String.mk (expandSpans line.line_text.data (G.filterMap parseSpan))) ∧
    Line.expand_abbreviations exampleAbbrevLine = some exampleExpandedText := by
  refine ⟨?_, by decide⟩
  simp only [Line.expand_abbreviations, hG]
  rw [expand_fold_eq G _ hparse]
  rfl

/-- Witness for **C3** at the repository's worked example. -/
theorem expand_abbreviations_spec_witness :
    Line.expand_abbreviations exampleAbbrevLine
      = some (String.mk (expandSpans exampleAbbrevLine.line_text.data
          (exampleAbbrevGroup.filterMap parseSpan))) ∧
    Line.expand_abbreviations exampleAbbrevLine = some exampleExpandedText :=
  expand_abbreviations_spec exampleAbbrevLine exampleAbbrevGroup (by decide)
    (by decide)

/-- **C4 counterexample**: the source applies spans in STORED order, not
ascending-offset order; with two well-formed spans stored in descending
offset order the result (`"aYYXXd"`) differs from the fold over the
spans sorted by ascending original offset (`"YYbXXd"`). -/
theorem expand_sorted_fold_counterexample :
    Line.expand_abbreviations descendingSpanLine ≠
      some (String.mk (expandSpans descendingSpanLine.line_text.data
        (sortSpans (descendingSpanGroup.filterMap parseSpan)))) := by decide

/-- **C4 (amended)**: expansion processes spans in stored order, so the
result equals the cumulative-delta fold over the spans sorted by
ascending original offset exactly when the stored spans are already in
ascending offset order. -/
theorem expand_sorted_when_ascending (line : Line)
    (G : List (List (String × String)))
    (hG : line.custom_attributes.lookup "abbrev" = some G)
    (hparse : ∀ d ∈ G, hasAllKeys d = true → (parseSpan d).isSome)
    (hsorted : (G.filterMap parseSpan).Sorted spanLE) :
    line.expand_abbreviations
      = some (String.mk (expandSpans line.line_text.data
          (sortSpans (G.filterMap parseSpan)))) := by
  have hss : sortSpans (G.filterMap parseSpan) = G.filterMap parseSpan :=
    hsorted.insertionSort_eq
  rw [hss]
  simp only [Line.expand_abbreviations, hG]
  rw [expand_fold_eq G _ hparse]
  rfl

/-- Witness for **C4 (amended)** at a line whose spans are stored in
ascending offset order. -/
theorem expand_sorted_when_ascending_witness :
    Line.expand_abbreviations ascendingSpanLine
      = some (String.mk (expandSpans ascendingSpanLine.line_text.data
          (sortSpans (ascendingSpanGroup.filterMap parseSpan)))) :=
  expand_sorted_when_ascending ascendingSpanLine ascendingSpanGroup (by decide)
    (by decide) (by decide)

/-- **C5**: on a non-empty coordinate list the extrema bound every
point, `get_bbox` is exactly `(min_x, min_y, max_x, max_y)` and
`get_width` is `max_x - min_x`; on the empty list every one of these
operations fails (the modelled `ValueError`) instead of returning a
default. -/
theorem coordinate_geometry_spec (coords : List Coordinate)
    (h : coords ≠ []) :
    ∃ mnx mxx mny mxy,
      Coordinate.min_x coords = some mnx ∧
      Coordinate.max_x coords = some mxx ∧
      Coordinate.min_y coords = some mny ∧
      Coordinate.max_y coords = some mxy ∧
      (∀ c ∈ coords, mnx ≤ c.x ∧ c.x ≤ mxx ∧ mny ≤ c.y ∧ c.y ≤ mxy) ∧
      Coordinate.get_bbox coords = some (mnx, mny, mxx, mxy) ∧
      Coordinate.get_width coords = some (mxx - mnx) ∧
      Coordinate.min_x [] = none ∧ Coordinate.max_x [] = none ∧
      Coordinate.min_y [] = none ∧ Coordinate.max_y [] = none ∧
      Coordinate.get_bbox [] = none ∧ Coordinate.get_width [] = none := by
  obtain ⟨c, cs, rfl⟩ := List.exists_cons_of_ne_nil h
  refine ⟨(cs.map Coordinate.x).foldl min c.x, (cs.map Coordinate.x).foldl max c.x,
    (cs.map Coordinate.y).foldl min c.y, (cs.map Coordinate.y).foldl max c.y,
    rfl, rfl, rfl, rfl, ?_, rfl, rfl, rfl, rfl, rfl, rfl, rfl, rfl⟩
  intro c' hc'
  have hmx : Coordinate.min_x (c :: cs)
      = some ((cs.map Coordinate.x).foldl min c.x) := rfl
  have hMx : Coordinate.max_x (c :: cs)
      = some ((cs.map Coordinate.x).foldl max c.x) := rfl
  have hmy : Coordinate.min_y (c :: cs)
      = some ((cs.map Coordinate.y).foldl min c.y) := rfl
  have hMy : Coordinate.max_y (c :: cs)
      = some ((cs.map Coordinate.y).foldl max c.y) := rfl
  exact ⟨pyMin_le hmx c'.x (List.mem_map_of_mem _ hc'),
    le_pyMax hMx c'.x (List.mem_map_of_mem _ hc'),
    pyMin_le hmy c'.y (List.mem_map_of_mem _ hc'),
    le_pyMax hMy c'.y (List.mem_map_of_mem _ hc')⟩

/-- Witness for **C5** at a concrete two-point list. -/
theorem coordinate_geometry_spec_witness :
    ∃ mnx mxx mny mxy,
      Coordinate.min_x [⟨1, 2⟩, ⟨3, 0⟩] = some mnx ∧
      Coordinate.max_x [⟨1, 2⟩, ⟨3, 0⟩] = some mxx ∧
      Coordinate.min_y [⟨1, 2⟩, ⟨3, 0⟩] = some mny ∧
      Coordinate.max_y [⟨1, 2⟩, ⟨3, 0⟩] = some mxy ∧
      (∀ c ∈ [Coordinate.mk 1 2, Coordinate.mk 3 0],
        mnx ≤ c.x ∧ c.x ≤ mxx ∧ mny ≤ c.y ∧ c.y ≤ mxy) ∧
      Coordinate.get_bbox [⟨1, 2⟩, ⟨3, 0⟩] = some (mnx, mny, mxx, mxy) ∧
      Coordinate.get_width [⟨1, 2⟩, ⟨3, 0⟩] = some (mxx - mnx) ∧
      Coordinate.min_x [] = none ∧ Coordinate.max_x [] = none ∧
      Coordinate.min_y [] = none ∧ Coordinate.max_y [] = none ∧
      Coordinate.get_bbox [] = none ∧ Coordinate.get_width [] = none :=
  coordinate_geometry_spec [⟨1, 2⟩, ⟨3, 0⟩] (by decide)

/-- **C6**: every line in a successfully processed document has
non-empty text, non-empty region coordinates and a non-empty baseline;
a text line failing any of the three is skipped and never appears; a
line with non-empty text and non-empty (even single-point) geometry is
retained. -/
theorem process_lines_filter_invariant (document : String)
    (raws : List RawTextLine) :
    ∃ lines, process_lines_core document (raws.map .ok) = .ok lines ∧
      (∀ l ∈ lines,
        l.line_text ≠ "" ∧ l.line_coordinates ≠ [] ∧ l.line_baseline ≠ []) ∧
      (∀ t, (t.line_text = "" ∨ t.line_coordinates = [] ∨ t.line_baseline = [])
        → mkLine document t ∉ lines) ∧
      (∀ t ∈ raws, t.line_text ≠ "" → t.line_coordinates ≠ [] →
        t.line_baseline ≠ [] → mkLine document t ∈ lines) := by
  obtain ⟨lines, heq, hmem, hkeep⟩ := process_lines_core_ok document raws
  refine ⟨lines, heq, hmem, ?_, hkeep⟩
  intro t hcond hmem'
  obtain ⟨h1, h2, h3⟩ := hmem _ hmem'
  rcases hcond with hc | hc | hc
  · exact h1 hc
  · exact h2 hc
  · exact h3 hc

/-- Witness for **C6**: with one good and one empty-text raw line, the
good line is in the result and the empty-text line is not. -/
theorem process_lines_filter_invariant_witness :
    ∃ lines,
      process_lines_core "doc.xml" ([goodRaw, badRaw].map .ok) = .ok lines ∧
      mkLine "doc.xml" goodRaw ∈ lines ∧ mkLine "doc.xml" badRaw ∉ lines := by
  obtain ⟨lines, heq, hmem, hskip, hkeep⟩ :=
    process_lines_filter_invariant "doc.xml" [goodRaw, badRaw]
  exact ⟨lines, heq,
    hkeep goodRaw (by simp) (by decide) (by decide) (by decide),
    hskip badRaw (by decide)⟩

/-- **C7**: with `stop_on_fail = false` every failing document is
recorded (`files_failed_process` counts it, its name joins the
processing-failure names) while the remaining documents are still
processed, and the run ends `done`; in particular a 3-document batch
whose second document fails ends `done` with `files_failed_process = 1`. -/
theorem preprocess_continue_on_fail (outcome : String → Option PreprocErr)
    (st : PreprocessState) (files : List String) :
    (∃ final, preprocess_xml_file_list outcome false st files = .ok final ∧
      final.state = .done ∧
      final.files_failed_process
        = st.files_failed_process + files.countP (fun f => (outcome f).isSome) ∧
      final.filenames_failed_process
        = st.filenames_failed_process ++ files.filter (fun f => (outcome f).isSome) ∧
      final.files_successful
        = st.files_successful + files.countP (fun f => (outcome f).isNone) ∧
      final.filenames_successful
        = st.filenames_successful ++ files.filter (fun f => (outcome f).isNone)) ∧
    (preprocess_xml_file_list
        (fun f => if f = "b.xml" then some .parseTextLines else none) false
        (initialize_status defaultPreprocessState ["a.xml", "b.xml", "c.xml"] [])
        ["a.xml", "b.xml", "c.xml"]).toOption.map
        (fun s => (s.state, s.files_failed_process, s.filenames_failed_process,
          s.files_successful, s.filenames_successful))
      = some (.done, 1, ["b.xml"], 2, ["a.xml", "c.xml"]) :=
  ⟨loop_no_stop outcome files 0 st, by decide⟩

/-- **C8**: evaluation at the failing input. `crop_line_from_image` hit
by an exception outside its four handled classes (e.g.
`IsADirectoryError` from opening a directory path) propagates with
`failed_processing` left unchanged — the identifier is never recorded —
whereas `extract_line_from_image` (which has an `except Exception`
catch-all) records the path on the same outcome. -/
theorem crop_line_unrecorded_failure :
    crop_line_from_image ⟨[], []⟩ [] "images/page_dir" .unhandledError
      = (⟨[], []⟩, .error .uncaught) ∧
    (extract_line_from_image ⟨[], []⟩ [⟨0, 0⟩] [⟨1, 1⟩] "images/page_dir"
        .unhandledError none).1.failed_processing = ["images/page_dir"] := by
  exact ⟨rfl, rfl⟩

/-- **C9**: the output filename inserts the line id before the final
alphabetic extension: a source of the form `stem.ext` yields
`stem.line_id.ext`; in particular `"1155140_0001_47389007.JPG"` with
line id `"0"` yields `"1155140_0001_47389007.0.JPG"`. -/
theorem output_filename_insertion (line : Line) (stem ext : String)
    (hdoc : line.line_document = stem ++ "." ++ ext)
    (h1 : ext.data ≠ []) (h2 : ∀ c ∈ ext.data, c.isAlpha = true) :
    line.get_output_filename = stem ++ "." ++ line.line_number ++ "." ++ ext ∧
    Line.get_output_filename exampleJpgLine = "1155140_0001_47389007.0.JPG" := by
  refine ⟨?_, by decide⟩
  have hdot : ("." : String).data = ['.'] := rfl
  have hdata : line.line_document.data
      = stem.data ++ '.' :: ext.data := by
    rw [hdoc]
    simp [String.data_append, hdot]
  have hrev : line.line_document.data.reverse
      = ext.data.reverse ++ '.' :: stem.data.reverse := by
    rw [hdata]
    simp
  have hall : ∀ c ∈ ext.data.reverse, c.isAlpha = true :=
    fun c hc => h2 c (List.mem_reverse.mp hc)
  have htake : line.line_document.data.reverse.takeWhile Char.isAlpha
      = ext.data.reverse := by
    rw [hrev, takeWhile_append_of_all _ _ hall]
    simp [List.takeWhile_cons]
  have hdrop : line.line_document.data.reverse.dropWhile Char.isAlpha
      = '.' :: stem.data.reverse := by
    rw [hrev, dropWhile_append_of_all _ _ hall]
    simp [List.dropWhile_cons]
  have hne : ext.data.reverse.isEmpty = false := by
    cases hx : ext.data with
    | nil => exact absurd hx h1
    | cons a l => simp [hx]
  have hR : (stem ++ "." ++ line.line_number ++ "." ++ ext).data
      = stem.data ++ '.' :: line.line_number.data ++ '.' :: ext.data := by
    simp [String.data_append, hdot]
  unfold Line.get_output_filename
  simp only [htake, hdrop, hne, List.reverse_reverse, Bool.false_eq_true,
    if_false]
  exact congrArg String.mk hR.symm

/-- Witness for **C9** at the worked filename example. -/
theorem output_filename_insertion_witness :
    Line.get_output_filename exampleJpgLine
      = "1155140_0001_47389007" ++ "." ++ exampleJpgLine.line_number
        ++ "." ++ "JPG" ∧
    Line.get_output_filename exampleJpgLine = "1155140_0001_47389007.0.JPG" :=
  output_filename_insertion exampleJpgLine "1155140_0001_47389007" "JPG"
    (by decide) (by decide) (by decide)

/-- **C10**: when the HTTP request times out or fails with a request
error, `fetch_image` still returns normally, appends the destination
path to `successes`, and leaves `failed_downloads` untouched — the
inner request helper swallows those exceptions itself. -/
theorem fetch_image_swallows_request_errors (st : DownloaderState)
    (page : Page) (img_output name : String) (outcome : RequestOutcome)
    (hname : page.image_file_name = some name)
    (houtcome : outcome = .timedOut ∨ outcome = .requestFailed) :
    fetch_image st page img_output outcome
      = ({ st with successes := st.successes ++ [pathJoin img_output name] },
          .ok ()) := by
  rcases houtcome with rfl | rfl <;>
    simp [fetch_image, hname, request_image_via_url]

/-- Witness for **C10**: a timed-out download of the example page is
recorded as a success and not as a failed download. -/
theorem fetch_image_swallows_request_errors_witness :
    fetch_image ⟨[], [], []⟩ examplePage "tmp/in" .timedOut
      = (⟨[], [], [pathJoin "tmp/in" "1155140_0001_47389007.JPG"]⟩, .ok ()) :=
  fetch_image_swallows_request_errors ⟨[], [], []⟩ examplePage "tmp/in"
    "1155140_0001_47389007.JPG" .timedOut rfl (Or.inl rfl)

end Flow
